import Mathlib

/-!
Verification of the `community.ioscm` reconciliation decision engine and
conditional retry executor.

The development shallowly embeds the two controllers of the collection:

* `Ioscm.Command` models
  `plugins/module_utils/network/ioscm/config/command/command.py`
  (the `Command` class: `parse_commands`, `run_commands`, `generate_command`).
* `Ioscm.Config` models
  `plugins/module_utils/network/ioscm/config/config/config.py`
  (the `Config` class: `check_args`, `get_candidate_config`,
  `get_running_config`, `save_config`, `generate_command`).

External collaborators (the netcommon `NetworkConfig` tree, the transport,
`get_config`, `run_commands`, `get_diff`, `Conditional` parsing) are black
boxes per the design document; they are modelled as oracle records whose
fields stand for the collaborator responses, and every device interaction is
recorded in an explicit trace so that claims about fetch counts, dispatched
edits, and persistence commands can be stated and decided.
-/

namespace Ioscm

/-- A parsed conditional predicate, as produced by the external
`Conditional` parser: its raw source text, and its evaluation function over
the list of command responses.  Each entry of the `wait_for` list becomes one
(distinct) `Conditional` object, so the executor's mutable list of pending
conditionals is represented below by the list of their indices into the
supplied list. -/
structure Conditional where
  raw : String
  eval : List String → Bool

namespace Command

/-- Warning text emitted by `parse_commands` when check mode drops a
command that does not start with "show" (command.py line 65-67). -/
def warnMsg (cmd : String) : String :=
  "Only show commands are supported when using check mode, not executing " ++ cmd

/-- Body of the check-mode filtering loop of `parse_commands`
(command.py lines 63-68): for one `item` of the iterated copy of the command
list, if the command does not start with "show", append a warning and remove
the first equal entry from the live list. -/
def parseStep (st : List String × List String) (item : String) :
    List String × List String :=
  if !(item.startsWith "show") then (st.1.erase item, st.2 ++ [warnMsg item])
  else st

/-- `Command.parse_commands` (command.py lines 51-69): outside check mode
the (already transformed) command list is returned untouched; in check mode
the loop above runs over a copy of the list.  Commands are represented by
their `command` text. -/
def parse_commands (checkMode : Bool) (commands : List String)
    (warnings : List String) : List String × List String :=
  if checkMode then commands.foldl parseStep (commands, warnings)
  else (commands, warnings)

/-- Evaluation of the pending conditional with index `i` against the
responses `rs` (`item(responses)` in command.py line 109). -/
def condSat (conds : List Conditional) (rs : List String) (i : Nat) : Bool :=
  (conds.getD i ⟨"", fun _ => false⟩).eval rs

/-- Inner `for` loop of `run_commands` when `match == "any"`
(command.py lines 108-112): predicates are evaluated in supply order until
the first satisfied one; on it the list is cleared and evaluation stops.
Returns (whether a satisfied predicate was found, the indices evaluated, in
order). -/
def evalAny (sat : Nat → Bool) : List Nat → Bool × List Nat
  | [] => (false, [])
  | i :: rest =>
    if sat i then (true, [i])
    else ((evalAny sat rest).1, i :: (evalAny sat rest).2)

/-- Inner `for` loop of `run_commands` when `match != "any"`
(command.py lines 108-113): every pending predicate is evaluated against the
responses, and each satisfied one is removed from the live list.  Returns
(the surviving pending indices, the indices evaluated, in order). -/
def evalAll (sat : Nat → Bool) : List Nat → List Nat × List Nat
  | [] => ([], [])
  | i :: rest =>
    if sat i then ((evalAll sat rest).1, i :: (evalAll sat rest).2)
    else (i :: (evalAll sat rest).1, i :: (evalAll sat rest).2)

/-- One evaluation pass over the pending conditionals, dispatching on the
match mode exactly as command.py lines 108-113 do: under "any" a find
clears the whole list, otherwise satisfied entries are removed one by one. -/
def stepPending (matchAny : Bool) (sat : Nat → Bool) (pending : List Nat) :
    List Nat × List Nat :=
  if matchAny then
    (if (evalAny sat pending).1 then [] else pending, (evalAny sat pending).2)
  else evalAll sat pending

/-- Observable outcome of one `run_commands` retry loop: the pending
conditional indices and last responses that the method returns, plus the
instrumentation needed by the specification claims — how many sends
happened, how many `time.sleep` calls happened, and which predicate indices
were evaluated in each iteration. -/
structure RunResult where
  pending : List Nat
  responses : List String
  sends : Nat
  sleeps : Nat
  evaluated : List (List Nat)
  deriving Repr, DecidableEq

/-- The `while retries >= 0` loop of `Command.run_commands`
(command.py lines 105-118).  `resp k` is the device's response list for the
`k`-th send of this call (successive iterations shift `resp`).  The Python
loop sends, evaluates the pending conditionals, breaks when none remain, and
otherwise sleeps and decrements `retries`; note that the sleep precedes the
decrement, so the loop also sleeps after the final send of an exhausted
run.  Total by structural recursion on the remaining retry budget. -/
def runLoop (matchAny : Bool) (conds : List Conditional) :
    (Nat → List String) → Nat → List Nat → RunResult
  | resp, retries, pending =>
    let rs := resp 0
    let step := stepPending matchAny (condSat conds rs) pending
    if step.1 = [] then ⟨step.1, rs, 1, 0, [step.2]⟩
    else
      match retries with
      | 0 => ⟨step.1, rs, 1, 1, [step.2]⟩
      | r + 1 =>
        let R := runLoop matchAny conds (fun k => resp (k + 1)) r step.1
        ⟨R.pending, R.responses, R.sends + 1, R.sleeps + 1, step.2 :: R.evaluated⟩

/-- `Command.run_commands` (command.py lines 95-118): the retry loop starts
with every supplied conditional pending, and behaves as "any" exactly when
the `match` parameter equals "any". -/
def run_commands (matchP : String) (conds : List Conditional)
    (resp : Nat → List String) (retries : Nat) : RunResult :=
  runLoop (matchP == "any") conds resp retries (List.range conds.length)

/-- Result dictionary assembled by `Command.generate_command` on success. -/
structure Result where
  changed : Bool
  warnings : List String
  stdout : List String
  deriving Repr, DecidableEq

/-- Failure message of command.py line 89. -/
def failMsg : String := "One or more conditional statements have not been satisfied"

/-- Raw source text of the conditional with index `i` (`item.raw`). -/
def condRaw (conds : List Conditional) (i : Nat) : String :=
  (conds.getD i ⟨"", fun _ => false⟩).raw

/-- Specification helper: predicate `i` is satisfied by none of the first
`s` sends. -/
def noSatBefore (conds : List Conditional) (resp : Nat → List String)
    (s i : Nat) : Bool :=
  decide (∀ k, k < s → condSat conds (resp k) i = false)

/-- `Command.generate_command` (command.py lines 71-93): parse (and in check
mode filter) the commands, run the retry loop, and fail with the raw text of
every still-pending conditional; otherwise return the result dictionary.
`send cmds k` is the device response to command list `cmds` on the `k`-th
send. -/
def generate_command (checkMode : Bool) (matchP : String) (retries : Nat)
    (cmds : List String) (conds : List Conditional)
    (send : List String → Nat → List String) :
    Except (String × List String) Result :=
  let pw := parse_commands checkMode cmds []
  let R := run_commands matchP conds (send pw.1) retries
  if R.pending ≠ [] then
    Except.error (failMsg, R.pending.map (condRaw conds))
  else
    Except.ok { changed := false, warnings := pw.2, stdout := R.responses }

end Command

namespace Config

/-- One device interaction of the `Config` controller, in the order it is
issued: a `get_config` fetch of the running configuration with the given
flags, a `run_commands` dispatch, a `connection.edit_config`,
`connection.edit_macro` or `connection.edit_banner` call. -/
inductive DeviceCall
  | getConfig (flags : List String)
  | runCmds (cmds : List String)
  | editConfig (cmds : List String)
  | editMacroCmd (cmds : List String)
  | editBanner (banner : String) (delim : Option String)
  deriving Repr, DecidableEq

/-- A Python value holding a configuration in `generate_command`: `None`, a
plain string, or a netcommon `NetworkConfig` object built from the given
contents and `ignore_lines` (the source rebinds the local `running_config`
from the string parameter to such an object in the `save_when == "modified"`
branch). -/
inductive CfgText
  | absent
  | text (s : String)
  | ncObj (contents : String) (ignore : List String)
  deriving Repr, DecidableEq

/-- Oracle record for the external collaborators used by `Config`: device
responses and the black-box behaviour of the netcommon `NetworkConfig`
parser/renderer.  `ncSha c ig` stands for `NetworkConfig(contents=c,
ignore_lines=ig).sha1`, `ncText` for `.config_text`, `ncStr` for `str(...)`,
and `ncBool c ig` for the truthiness of a `NetworkConfig` object built from
`(c, ig)`. -/
structure Netcom where
  defaultsFlag : List String
  getConfigResp : List String → String
  runCmdsResp : List String → List String
  getDiff : String → String → String → List String → List String → String →
    Except String (String × String)
  dumpCandidate : List String → List String → String
  ncSha : CfgText → List String → Nat
  ncText : CfgText → List String → String
  ncStr : CfgText → List String → String
  ncBool : String → List String → Bool

/-- The module parameters consumed by `Config.generate_command`, with the
option names of the argspec (`diff_match` is the `match` parameter,
`diff_mode` is `module._diff`, `check_mode` is `module.check_mode`). -/
structure Params where
  lines : List String
  src : Option String
  parents : List String
  before : List String
  after : List String
  diff_match : String
  replace : String
  multiline_delimiter : Option String
  running_config : Option String
  defaults : Bool
  backup : Bool
  save_when : String
  diff_against : Option String
  intended_config : Option String
  diff_ignore_lines : List String
  check_mode : Bool
  diff_mode : Bool
  deriving Repr, DecidableEq

/-- The result dictionary assembled by `Config.generate_command`. -/
structure Result where
  changed : Bool
  warnings : List String
  backupContents : Option String
  commands : Option (List String)
  updates : Option (List String)
  banners : Option String
  diff : Option (String × String)
  deriving Repr, DecidableEq

/-- Python truthiness of an optional string parameter (`None` and the empty
string are falsy). -/
def optTruthy : Option String → Bool
  | some s => s != ""
  | none => false

/-- Python truthiness of a `CfgText` value (`NetworkConfig` objects defer to
the collaborator oracle). -/
def cfgTruthy (nc : Netcom) : CfgText → Bool
  | CfgText.absent => false
  | CfgText.text s => s != ""
  | CfgText.ncObj c ig => nc.ncBool c ig

/-- `.config_text` of a value known to be a `NetworkConfig` object (used for
`startup_config.config_text`; the other cases cannot occur there). -/
def cfgConfigText (nc : Netcom) : CfgText → String
  | CfgText.ncObj c ig => nc.ncText (CfgText.text c) ig
  | CfgText.text s => nc.ncText (CfgText.text s) []
  | CfgText.absent => nc.ncText CfgText.absent []

/-- `Config.check_args` (config.py lines 52-56): the invocation fails iff
the `multiline_delimiter` parameter is truthy and not a single character.
Note the Python truthiness test: `None` and `""` skip the check. -/
def check_args_fail (p : Params) : Bool :=
  match p.multiline_delimiter with
  | some d => d != "" && d.length != 1
  | none => false

/-- `Config.get_candidate_config` (config.py lines 66-75): a truthy `src`
wins verbatim; otherwise truthy `lines` are rendered through the external
tree builder with `parents` as path; otherwise the candidate is empty. -/
def get_candidate_config (p : Params) (nc : Netcom) : String :=
  if optTruthy p.src then p.src.getD ""
  else if !p.lines.isEmpty then nc.dumpCandidate p.lines p.parents
  else ""

/-- `Config.get_running_config` (config.py lines 77-84): a truthy
`running_config` parameter wins; else, if defaults were not requested and a
previously fetched copy is truthy, it is reused; else the config is fetched
from the device with the given flags.  Returns the text and the device
calls issued. -/
def get_running_config (p : Params) (nc : Netcom) (current : Option String)
    (flags : List String) : String × List DeviceCall :=
  if optTruthy p.running_config then (p.running_config.getD "", [])
  else if !p.defaults && optTruthy current then (current.getD "", [])
  else (nc.getConfigResp flags, [DeviceCall.getConfig flags])

/-- Warning emitted by `Config.save_config` in check mode
(config.py lines 91-93). -/
def saveSkipWarning : String :=
  "Skipping command `copy running-config startup-config` due to check_mode.  Configuration not copied to non-volatile storage"

/-- The persistence command issued by `Config.save_config`. -/
def copySaveCmd : DeviceCall :=
  DeviceCall.runCmds ["copy running-config startup-config\r"]

/-- `Config.save_config` (config.py lines 86-93): unconditionally marks the
result changed; outside check mode it issues the copy command, in check mode
it appends a warning instead. -/
def save_config (checkMode : Bool) (res : Result) : Result × List DeviceCall :=
  let res := { res with changed := true }
  if !checkMode then (res, [copySaveCmd])
  else ({ res with warnings := res.warnings ++ [saveSkipWarning] }, [])

/-- `Config.edit_config_or_macro` (config.py lines 58-64): commands whose
first entry starts with "macro name" go to the macro edit path, all others
to the standard config edit path. -/
def edit_dispatch (commands : List String) : DeviceCall :=
  if (commands.headD "").startsWith "macro name" then
    DeviceCall.editMacroCmd commands
  else DeviceCall.editConfig commands

/-- The flags used for running-config fetches
(config.py line 106: the defaults flag exactly when `defaults` is set). -/
def defaultFlags (p : Params) (nc : Netcom) : List String :=
  if p.defaults then nc.defaultsFlag else []

/-- Condition of the pre-fetch block (config.py lines 108-112): the running
config is fetched up front when a backup was requested or a diff against the
running config will be reported. -/
def preFetch (p : Params) : Bool :=
  p.backup || (p.diff_mode && p.diff_against == some "running")

/-- Contents fetched by the pre-fetch block, when it runs. -/
def preFetchContents (p : Params) (nc : Netcom) : Option String :=
  if preFetch p then some (nc.getConfigResp (defaultFlags p nc)) else none

/-- `any((lines, src))` of config.py line 117. -/
def linesOrSrc (p : Params) : Bool :=
  !p.lines.isEmpty || optTruthy p.src

/-- Initial result dictionary of `Config.generate_command`. -/
def emptyResult : Result :=
  { changed := false, warnings := [], backupContents := none,
    commands := none, updates := none, banners := none, diff := none }

/-- Output of the diff-and-apply portion of `Config.generate_command`
(lines 99-156): the result so far, the cached pre-fetched contents, the
contents behind the `config` NetworkConfig object (when built), and the
device calls issued so far. -/
structure ApplyOut where
  res : Result
  contents : Option String
  config : Option String
  calls : List DeviceCall
  deriving Repr, DecidableEq

/-- Config.py lines 99-156: build the initial result, optionally pre-fetch
the running config (for backup or later running-diff), and when `lines` or
`src` are supplied resolve candidate and running texts, obtain the diff from
the collaborator, assemble the command list with `before`/`after`, record it,
dispatch the edits outside check mode, and mark the result changed.  A
`ConnectionError` from the diff collaborator aborts the invocation. -/
def applyPhase (p : Params) (nc : Netcom) :
    Except (String × List DeviceCall) ApplyOut :=
  let flags := defaultFlags p nc
  let contents := preFetchContents p nc
  let res0 :=
    match contents with
    | some c => if p.backup then { emptyResult with backupContents := some c }
                else emptyResult
    | none => emptyResult
  let calls0 : List DeviceCall :=
    match contents with
    | some _ => [DeviceCall.getConfig flags]
    | none => []
  if linesOrSrc p then
    let candidate := get_candidate_config p nc
    let rr := get_running_config p nc contents flags
    let calls1 := calls0 ++ rr.2
    match nc.getDiff candidate rr.1 p.diff_match p.diff_ignore_lines p.parents
        p.replace with
    | Except.error e => Except.error (e, calls1)
    | Except.ok d =>
      let config_diff := d.1
      let banner_diff := d.2
      if config_diff != "" || banner_diff != "" then
        let commands := p.before ++ config_diff.splitOn "\n" ++ p.after
        let res1 := { res0 with commands := some commands,
                                updates := some commands,
                                banners := some banner_diff }
        let calls2 := calls1 ++
          (if !p.check_mode then
            (if !commands.isEmpty then [edit_dispatch commands] else []) ++
            (if banner_diff != "" then
              [DeviceCall.editBanner banner_diff p.multiline_delimiter]
             else [])
           else [])
        Except.ok { res := { res1 with changed := true }, contents := contents,
                    config := contents, calls := calls2 }
      else
        Except.ok { res := res0, contents := contents, config := contents,
                    calls := calls1 }
  else
    Except.ok { res := res0, contents := contents, config := contents,
                calls := calls0 }

/-- Device output fetched by the `save_when == "modified"` branch. -/
def modifiedOutput (nc : Netcom) : List String :=
  nc.runCmdsResp ["show running-config", "show startup-config"]

/-- Hash comparison of the `save_when == "modified"` branch
(config.py line 173): the sha1 of the fetched running config differs from
the sha1 of the fetched startup config, both parsed with
`diff_ignore_lines`. -/
def modifiedDiffer (p : Params) (nc : Netcom) : Bool :=
  nc.ncSha (CfgText.text ((modifiedOutput nc).getD 0 ""))
      p.diff_ignore_lines
    != nc.ncSha (CfgText.text ((modifiedOutput nc).getD 1 ""))
      p.diff_ignore_lines

/-- Output of the save decision portion. -/
structure SaveOut where
  res : Result
  running_config : CfgText
  startup_config : Option CfgText
  calls : List DeviceCall
  deriving Repr, DecidableEq

/-- Config.py lines 157-176: the four-way save decision.  The local
`running_config` is first rebound to the string parameter; the "modified"
branch fetches the running and startup configs, rebinds both locals to
`NetworkConfig` objects, and saves on hash inequality; "always" saves
unconditionally; "changed" saves when the apply step marked the result
changed; everything else (in particular "never") does nothing. -/
def savePhase (p : Params) (nc : Netcom) (res : Result) : SaveOut :=
  let rc0 : CfgText :=
    match p.running_config with
    | some s => CfgText.text s
    | none => CfgText.absent
  if p.save_when == "always" then
    let sc := save_config p.check_mode res
    ⟨sc.1, rc0, none, sc.2⟩
  else if p.save_when == "modified" then
    let output := modifiedOutput nc
    let calls := [DeviceCall.runCmds ["show running-config", "show startup-config"]]
    let rcN := CfgText.ncObj (output.getD 0 "") p.diff_ignore_lines
    let scN := CfgText.ncObj (output.getD 1 "") p.diff_ignore_lines
    if modifiedDiffer p nc then
      let sc := save_config p.check_mode res
      ⟨sc.1, rcN, some scN, calls ++ sc.2⟩
    else ⟨res, rcN, some scN, calls⟩
  else if p.save_when == "changed" && res.changed then
    let sc := save_config p.check_mode res
    ⟨sc.1, rc0, none, sc.2⟩
  else ⟨res, rc0, none, []⟩

/-- Specification helper: the condition under which the save decision
elects to persist, given the `changed` flag produced by the apply step. -/
def save_elected (p : Params) (nc : Netcom) (changed : Bool) : Prop :=
  p.save_when = "always"
  ∨ (p.save_when = "modified" ∧ modifiedDiffer p nc = true)
  ∨ (p.save_when = "changed" ∧ changed = true)

instance (p : Params) (nc : Netcom) (c : Bool) :
    Decidable (save_elected p nc c) := by
  unfold save_elected; infer_instance

/-- Warning of config.py lines 192-194. -/
def diffRunningWarn : String :=
  "unable to perform diff against running-config due to check mode"

/-- Config.py lines 178-189 (inside the diff block): resolve the post-run
running config, fetching it from the device unless a truthy local copy
exists. -/
def diffFetched (nc : Netcom) (running_config : CfgText) :
    CfgText × List DeviceCall :=
  if !(cfgTruthy nc running_config) then
    (CfgText.text ((nc.runCmdsResp ["show running-config"]).getD 0 ""),
     [DeviceCall.runCmds ["show running-config"]])
  else (running_config, [])

/-- Config.py lines 190-205: pick the base contents according to
`diff_against` (warning and skip for running in check mode; fetch the
startup config when no local copy is held; the caller-supplied intended
config).  Returns the base contents, the possibly warned result, and the
accumulated device calls. -/
def diffBase (p : Params) (nc : Netcom) (res : Result)
    (startup_config : Option CfgText) (config : Option String)
    (contents : CfgText) (calls : List DeviceCall) :
    CfgText × Result × List DeviceCall :=
  if p.diff_against == some "running" then
    if p.check_mode then
      (CfgText.absent,
       { res with warnings := res.warnings ++ [diffRunningWarn] }, calls)
    else
      (CfgText.text (nc.ncText (CfgText.text (config.getD "")) []), res, calls)
  else if p.diff_against == some "startup" then
    if !(cfgTruthy nc (startup_config.getD CfgText.absent)) then
      (CfgText.text ((nc.runCmdsResp ["show startup-config"]).getD 0 ""),
       res, calls ++ [DeviceCall.runCmds ["show startup-config"]])
    else
      (CfgText.text (cfgConfigText nc (startup_config.getD CfgText.absent)),
       res, calls)
  else if p.diff_against == some "intended" then
    ((match p.intended_config with
      | some s => CfgText.text s
      | none => CfgText.absent), res, calls)
  else (contents, res, calls)

/-- Config.py lines 206-225: when a base exists and the normalized hashes
differ, attach the before/after diff block and force `changed`. -/
def diffCompare (p : Params) (nc : Netcom) (contents base : CfgText)
    (res : Result) (calls : List DeviceCall) : Result × List DeviceCall :=
  if base ≠ CfgText.absent then
    if nc.ncSha contents p.diff_ignore_lines ≠
        nc.ncSha base p.diff_ignore_lines then
      let ba :=
        if p.diff_against == some "intended" then
          (nc.ncStr contents p.diff_ignore_lines,
           nc.ncStr base p.diff_ignore_lines)
        else if p.diff_against == some "startup"
            || p.diff_against == some "running" then
          (nc.ncStr base p.diff_ignore_lines,
           nc.ncStr contents p.diff_ignore_lines)
        else ("", "")
      ({ res with changed := true, diff := some ba }, calls)
    else (res, calls)
  else (res, calls)

/-- Config.py lines 177-225: when diff output was requested, resolve the
post-run running config (fetching it unless a truthy local copy exists),
pick the base text according to `diff_against`, and when the two normalized
hashes differ attach a diff block and force `changed`. -/
def diffPhase (p : Params) (nc : Netcom) (res : Result)
    (running_config : CfgText) (startup_config : Option CfgText)
    (config : Option String) : Result × List DeviceCall :=
  if !p.diff_mode then (res, [])
  else
    let fetched := diffFetched nc running_config
    let step2 := diffBase p nc res startup_config config fetched.1 fetched.2
    diffCompare p nc fetched.1 step2.1 step2.2.1 step2.2.2

/-- Config.py lines 227-238: when the invocation changed something and
configuration input was supplied, append the idempotency advice warning
(extended when `src` was used). -/
def finalWarn (p : Params) (res : Result) : Result :=
  if res.changed && (optTruthy p.src || !p.lines.isEmpty) then
    let msg := "To ensure idempotency and correct diff the input configuration lines should be similar to how they appear if present in the running configuration on device"
    let msg := if optTruthy p.src then msg ++ " including the indentation" else msg
    { res with warnings := res.warnings ++ [msg] }
  else res

/-- `Config.generate_command` (config.py lines 95-240): validate the
delimiter (failing before any device contact), run the diff-and-apply
portion, the save decision, the diff-against resolution, and the final
warning, collecting the full device-call trace. -/
def generate_command (p : Params) (nc : Netcom) :
    Except (String × List DeviceCall) (Result × List DeviceCall) :=
  if check_args_fail p then
    Except.error ("multiline_delimiter value can only be a single character", [])
  else
    match applyPhase p nc with
    | Except.error e => Except.error e
    | Except.ok a =>
      let so := savePhase p nc a.res
      let dp := diffPhase p nc so.res so.running_config so.startup_config a.config
      Except.ok (finalWarn p dp.1, a.calls ++ so.calls ++ dp.2)

/-- Result component of a finished invocation (junk on failure). -/
def resOf (x : Except (String × List DeviceCall) (Result × List DeviceCall)) :
    Result :=
  match x with
  | Except.ok y => y.1
  | Except.error _ => emptyResult

/-- Device-call trace of an invocation, successful or not. -/
def traceOf (x : Except (String × List DeviceCall) (Result × List DeviceCall)) :
    List DeviceCall :=
  match x with
  | Except.ok y => y.2
  | Except.error e => e.2

/-- Device calls issued by the diff-and-apply portion, successful or not. -/
def applyCalls (p : Params) (nc : Netcom) : List DeviceCall :=
  match applyPhase p nc with
  | Except.ok a => a.calls
  | Except.error e => e.2

/-- The flag lists of the `get_config` fetches inside a trace, in order. -/
def getConfigCalls : List DeviceCall → List (List String)
  | [] => []
  | DeviceCall.getConfig f :: rest => f :: getConfigCalls rest
  | _ :: rest => getConfigCalls rest

/-- Whether the apply step marked the result changed (false when the
invocation failed before completing the apply step). -/
def applyChangedOf (p : Params) (nc : Netcom) : Bool :=
  match applyPhase p nc with
  | Except.ok a => a.res.changed
  | Except.error _ => false

end Config

/-! Concrete fixtures used by counterexamples and witnesses. -/

/-- Baseline parameter set: no configuration input, all options at their
argspec defaults, outside check and diff mode. -/
def baseParams : Config.Params :=
  { lines := [], src := none, parents := [], before := [], after := [],
    diff_match := "line", replace := "line", multiline_delimiter := some "@",
    running_config := none, defaults := false, backup := false,
    save_when := "never", diff_against := none, intended_config := none,
    diff_ignore_lines := [], check_mode := false, diff_mode := false }

/-- Baseline collaborator oracle: a device whose running config is
"running", empty command output, an empty diff, and trivial NetworkConfig
behaviour. -/
def baseNetcom : Config.Netcom :=
  { defaultsFlag := ["all"],
    getConfigResp := fun _ => "running",
    runCmdsResp := fun _ => [],
    getDiff := fun _ _ _ _ _ _ => Except.ok ("", ""),
    dumpCandidate := fun l _ => String.intercalate "\n" l,
    ncSha := fun _ _ => 0,
    ncText := fun _ _ => "",
    ncStr := fun _ _ => "",
    ncBool := fun _ _ => true }

/-- C2 counterexample fixture: backup requested together with the
all-defaults variant, no override, one config line. -/
def pC2x : Config.Params :=
  { baseParams with lines := ["hostname foo"], backup := true,
                    defaults := true, check_mode := true }

/-- C2 witness fixture: as `pC2x` but without the defaults variant. -/
def pC2w : Config.Params :=
  { baseParams with lines := ["hostname foo"], backup := true,
                    check_mode := true }

/-- C5 witness fixture: save always, outside check mode. -/
def pC5w : Config.Params := { baseParams with save_when := "always" }

/-- C6 counterexample fixture: an empty multiline delimiter. -/
def pC6x : Config.Params := { baseParams with multiline_delimiter := some "" }

/-- C6 witness fixture: a two-character multiline delimiter. -/
def pC6w : Config.Params := { baseParams with multiline_delimiter := some "ab" }

/-- C9 fixture: one config line, before/after commands, and a collaborator
whose diff has an empty line part and a non-empty banner part. -/
def pC9 : Config.Params :=
  { baseParams with lines := ["x"], before := ["b1"], after := ["a1"] }

/-- C9 collaborator: empty line diff, non-empty banner diff. -/
def ncC9 : Config.Netcom :=
  { baseNetcom with getDiff := fun _ _ _ _ _ _ => Except.ok ("", "BANNER") }

/-- C10 witness fixture: save always with no configuration input at all. -/
def pC10w : Config.Params := { baseParams with save_when := "always" }

end Ioscm

open Ioscm

/-! ## Lemmas about the check-mode command filter -/

namespace Ioscm.Command

/-- The filtering loop, started with the kept commands `kept` (all of which
start with "show") in front of the commands `rest` still to be visited,
keeps exactly the "show" commands of `rest` and appends one warning per
removed command. -/
theorem parseStep_fold (rest : List String) :
    ∀ (kept w : List String), (∀ y ∈ kept, y.startsWith "show" = true) →
    rest.foldl parseStep (kept ++ rest, w) =
      (kept ++ rest.filter (fun c => c.startsWith "show"),
       w ++ (rest.filter (fun c => !(c.startsWith "show"))).map warnMsg) := by
  induction rest with
  | nil => intro kept w _; simp
  | cons x xs ih =>
    intro kept w hk
    by_cases hx : x.startsWith "show" = true
    · have hstep : parseStep (kept ++ x :: xs, w) x = (kept ++ x :: xs, w) := by
        simp [parseStep, hx]
      have hk' : ∀ y ∈ kept ++ [x], y.startsWith "show" = true := by
        intro y hy
        rcases List.mem_append.mp hy with h | h
        · exact hk y h
        · simp at h; subst h; exact hx
      have := ih (kept ++ [x]) w hk'
      simp only [List.foldl_cons, hstep]
      simpa [hx, List.filter_cons, List.append_assoc] using this
    · have hx' : x.startsWith "show" = false := by
        simpa using hx
      have hnotin : x ∉ kept := by
        intro hmem
        have := hk x hmem
        rw [hx'] at this
        exact Bool.false_ne_true this
      have herase : (kept ++ x :: xs).erase x = kept ++ xs := by
        rw [List.erase_append_right _ hnotin, List.erase_cons_head]
      have hstep : parseStep (kept ++ x :: xs, w) x =
          (kept ++ xs, w ++ [warnMsg x]) := by
        simp [parseStep, hx', herase]
      have := ih kept (w ++ [warnMsg x]) hk
      simp only [List.foldl_cons, hstep]
      simpa [hx', List.filter_cons, List.append_assoc] using this

/-- Characterization of `parse_commands` in check mode: kept commands are
exactly the "show"-led ones in order, and one warning is appended per
removed command. -/
theorem parse_commands_check (cmds w : List String) :
    parse_commands true cmds w =
      (cmds.filter (fun c => c.startsWith "show"),
       w ++ (cmds.filter (fun c => !(c.startsWith "show"))).map warnMsg) := by
  have := parseStep_fold cmds [] w (by intro y hy; simp at hy)
  simpa [parse_commands] using this

/-! ## Lemmas about the retry loop -/

/-- The ALL-mode pass keeps exactly the unsatisfied pending predicates and
evaluates all of them. -/
theorem evalAll_eq (sat : Nat → Bool) (l : List Nat) :
    evalAll sat l = (l.filter (fun i => !(sat i)), l) := by
  induction l with
  | nil => rfl
  | cons i rest ih =>
    by_cases h : sat i <;> simp [evalAll, h, ih, List.filter_cons]

/-- The ANY-mode pass finds a predicate iff some pending predicate is
satisfied. -/
theorem evalAny_found (sat : Nat → Bool) (l : List Nat) :
    (evalAny sat l).1 = l.any sat := by
  induction l with
  | nil => rfl
  | cons i rest ih =>
    by_cases h : sat i <;> simp [evalAny, h, ih]

/-- The ANY-mode pass evaluates the pending predicates up to and including
the first satisfied one, and nothing after it. -/
theorem evalAny_evaluated (sat : Nat → Bool) (l : List Nat) :
    (evalAny sat l).2 =
      if l.any sat then
        l.takeWhile (fun j => !(sat j)) ++
          (l.dropWhile (fun j => !(sat j))).take 1
      else l := by
  induction l with
  | nil => rfl
  | cons i rest ih =>
    by_cases h : sat i
    · simp [evalAny, h, List.takeWhile_cons, List.dropWhile_cons]
    · by_cases hr : rest.any sat
      · simp [evalAny, h, hr, ih, List.takeWhile_cons, List.dropWhile_cons]
      · simp [evalAny, h, hr, ih]

/-- Every entry of the evaluated-but-unsatisfied portion fails the
predicate. -/
theorem takeWhile_not_sat (sat : Nat → Bool) (l : List Nat) :
    ∀ j ∈ l.takeWhile (fun j => !(sat j)), sat j = false := by
  intro j hj
  have := List.mem_takeWhile_imp hj
  simpa using this

/-- The head of the remaining portion is satisfied when a satisfied entry
exists. -/
theorem dropWhile_head_sat (sat : Nat → Bool) (l : List Nat)
    (h : l.any sat = true) :
    ∀ i ∈ (l.dropWhile (fun j => !(sat j))).take 1, sat i = true := by
  induction l with
  | nil => simp at h
  | cons x rest ih =>
    by_cases hx : sat x
    · intro i hi
      simp [List.dropWhile_cons, hx] at hi
      subst hi; exact hx
    · have hr : rest.any sat = true := by simpa [hx] using h
      intro i hi
      simp only [List.dropWhile_cons] at hi
      rw [if_pos (by simp [hx])] at hi
      exact ih hr i hi

/-- One-step unfolding of the retry loop. -/
theorem runLoop_def (matchAny : Bool) (conds : List Conditional)
    (resp : Nat → List String) (retries : Nat) (pending : List Nat) :
    runLoop matchAny conds resp retries pending =
      (let step := stepPending matchAny (condSat conds (resp 0)) pending
       if step.1 = [] then ⟨step.1, resp 0, 1, 0, [step.2]⟩
       else
         match retries with
         | 0 => ⟨step.1, resp 0, 1, 1, [step.2]⟩
         | r + 1 =>
           let R := runLoop matchAny conds (fun k => resp (k + 1)) r step.1
           ⟨R.pending, R.responses, R.sends + 1, R.sleeps + 1,
            step.2 :: R.evaluated⟩) := by
  rw [runLoop.eq_def]

/-- The loop always performs at least one send. -/
theorem runLoop_sends_pos (matchAny : Bool) (conds : List Conditional)
    (resp : Nat → List String) (retries : Nat) (pending : List Nat) :
    1 ≤ (runLoop matchAny conds resp retries pending).sends := by
  rw [runLoop_def]
  by_cases h : (stepPending matchAny (condSat conds (resp 0)) pending).1 = []
  · simp [h]
  · cases retries <;> simp [h]

/-- The loop performs at most `retries + 1` sends. -/
theorem runLoop_sends_le (matchAny : Bool) (conds : List Conditional) :
    ∀ (retries : Nat) (resp : Nat → List String) (pending : List Nat),
    (runLoop matchAny conds resp retries pending).sends ≤ retries + 1 := by
  intro retries
  induction retries with
  | zero =>
    intro resp pending
    rw [runLoop_def]
    by_cases h : (stepPending matchAny (condSat conds (resp 0)) pending).1 = [] <;>
      simp [h]
  | succ r ih =>
    intro resp pending
    rw [runLoop_def]
    by_cases h : (stepPending matchAny (condSat conds (resp 0)) pending).1 = []
    · simp [h]
    · simpa [h] using ih (fun k => resp (k + 1)) _

/-- With zero retries the loop performs exactly one send. -/
theorem runLoop_zero_sends (matchAny : Bool) (conds : List Conditional)
    (resp : Nat → List String) (pending : List Nat) :
    (runLoop matchAny conds resp 0 pending).sends = 1 := by
  rw [runLoop_def]
  by_cases h : (stepPending matchAny (condSat conds (resp 0)) pending).1 = [] <;>
    simp [h]

/-- With no pending predicate at all the loop stops after the first send. -/
theorem runLoop_nil_pending (matchAny : Bool) (conds : List Conditional)
    (resp : Nat → List String) (retries : Nat) :
    runLoop matchAny conds resp retries [] =
      ⟨[], resp 0, 1, 0, [[]]⟩ := by
  rw [runLoop_def]
  by_cases hm : matchAny <;> simp [stepPending, evalAny, evalAll, hm]

/-- Sleep accounting: a sleep follows every send that leaves predicates
pending — also the last send of an exhausted run — and no sleep follows the
send that satisfies the run. -/
theorem runLoop_sleeps (matchAny : Bool) (conds : List Conditional) :
    ∀ (retries : Nat) (resp : Nat → List String) (pending : List Nat),
    (runLoop matchAny conds resp retries pending).sleeps =
      (if (runLoop matchAny conds resp retries pending).pending = []
       then (runLoop matchAny conds resp retries pending).sends - 1
       else (runLoop matchAny conds resp retries pending).sends) := by
  intro retries
  induction retries with
  | zero =>
    intro resp pending
    rw [runLoop_def]
    by_cases h : (stepPending matchAny (condSat conds (resp 0)) pending).1 = [] <;>
      simp [h]
  | succ r ih =>
    intro resp pending
    rw [runLoop_def]
    by_cases h : (stepPending matchAny (condSat conds (resp 0)) pending).1 = []
    · simp [h]
    · have := ih (fun k => resp (k + 1))
        (stepPending matchAny (condSat conds (resp 0)) pending).1
      have hpos := runLoop_sends_pos matchAny conds (fun k => resp (k + 1)) r
        (stepPending matchAny (condSat conds (resp 0)) pending).1
      by_cases hp : (runLoop matchAny conds (fun k => resp (k + 1)) r
          (stepPending matchAny (condSat conds (resp 0)) pending).1).pending = []
      · simp only [h, if_false, hp, if_pos] at this ⊢
        simp [h, hp, this]
        omega
      · simp [h, hp, this]

/-- Splitting a bounded universal over `k < s + 1` into the `k = 0` case and
the shifted remainder, at the level of `decide`. -/
theorem decide_forall_succ (s : Nat) (g : Nat → Bool) :
    decide (∀ k, k < s + 1 → g k = false) =
      (!(g 0) && decide (∀ k, k < s → g (k + 1) = false)) := by
  cases h0 : g 0 with
  | false =>
    cases hs : decide (∀ k, k < s → g (k + 1) = false) with
    | false =>
      have hns : ¬ (∀ k, k < s → g (k + 1) = false) := of_decide_eq_false hs
      simp only [h0, Bool.not_false, Bool.true_and]
      apply decide_eq_false
      intro hall
      exact hns (fun k hk => hall (k + 1) (by omega))
    | true =>
      have hall : ∀ k, k < s → g (k + 1) = false := of_decide_eq_true hs
      simp only [h0, Bool.not_false, Bool.true_and]
      apply decide_eq_true
      intro k hk
      cases k with
      | zero => exact h0
      | succ k' => exact hall k' (by omega)
  | true =>
    simp only [h0, Bool.not_true, Bool.false_and]
    apply decide_eq_false
    intro hall
    have := hall 0 (by omega)
    rw [h0] at this
    simp at this

/-- In ALL mode one evaluation pass keeps the unsatisfied predicates and
evaluates every pending one. -/
theorem stepPending_all (sat : Nat → Bool) (l : List Nat) :
    stepPending false sat l = (l.filter (fun i => !(sat i)), l) := by
  simp [stepPending, evalAll_eq]

/-- Let-free unfolding for a zero retry budget. -/
theorem runLoop_zero_def (matchAny : Bool) (conds : List Conditional)
    (resp : Nat → List String) (pending : List Nat) :
    runLoop matchAny conds resp 0 pending =
      if (stepPending matchAny (condSat conds (resp 0)) pending).1 = [] then
        ⟨(stepPending matchAny (condSat conds (resp 0)) pending).1, resp 0, 1, 0,
         [(stepPending matchAny (condSat conds (resp 0)) pending).2]⟩
      else
        ⟨(stepPending matchAny (condSat conds (resp 0)) pending).1, resp 0, 1, 1,
         [(stepPending matchAny (condSat conds (resp 0)) pending).2]⟩ := by
  rw [runLoop.eq_def]

/-- Let-free unfolding for a positive retry budget. -/
theorem runLoop_succ_def (matchAny : Bool) (conds : List Conditional)
    (resp : Nat → List String) (r : Nat) (pending : List Nat) :
    runLoop matchAny conds resp (r + 1) pending =
      if (stepPending matchAny (condSat conds (resp 0)) pending).1 = [] then
        ⟨(stepPending matchAny (condSat conds (resp 0)) pending).1, resp 0, 1, 0,
         [(stepPending matchAny (condSat conds (resp 0)) pending).2]⟩
      else
        ⟨(runLoop matchAny conds (fun k => resp (k + 1)) r
            (stepPending matchAny (condSat conds (resp 0)) pending).1).pending,
         (runLoop matchAny conds (fun k => resp (k + 1)) r
            (stepPending matchAny (condSat conds (resp 0)) pending).1).responses,
         (runLoop matchAny conds (fun k => resp (k + 1)) r
            (stepPending matchAny (condSat conds (resp 0)) pending).1).sends + 1,
         (runLoop matchAny conds (fun k => resp (k + 1)) r
            (stepPending matchAny (condSat conds (resp 0)) pending).1).sleeps + 1,
         (stepPending matchAny (condSat conds (resp 0)) pending).2 ::
           (runLoop matchAny conds (fun k => resp (k + 1)) r
             (stepPending matchAny (condSat conds (resp 0)) pending).1).evaluated⟩ := by
  rw [runLoop.eq_def]

/-- Evaluating `noSatBefore` at bound 1. -/
theorem noSatBefore_one (conds : List Conditional) (resp : Nat → List String)
    (i : Nat) :
    noSatBefore conds resp 1 i = !(condSat conds (resp 0) i) := by
  cases hc : condSat conds (resp 0) i <;>
    simp [noSatBefore, hc, Nat.lt_one_iff]

/-- Peeling one send off `noSatBefore`. -/
theorem noSatBefore_succ (conds : List Conditional) (resp : Nat → List String)
    (s i : Nat) :
    noSatBefore conds resp (s + 1) i =
      (!(condSat conds (resp 0) i) &&
        noSatBefore conds (fun k => resp (k + 1)) s i) := by
  exact decide_forall_succ s (fun k => condSat conds (resp k) i)

/-- ALL-mode pending characterization: the predicates still pending when the
loop stops are exactly those satisfied in none of the performed sends, in
their original order. -/
theorem runLoop_all_pending (conds : List Conditional) :
    ∀ (retries : Nat) (resp : Nat → List String) (pending : List Nat),
    (runLoop false conds resp retries pending).pending =
      pending.filter
        (noSatBefore conds resp (runLoop false conds resp retries pending).sends) := by
  intro retries
  induction retries with
  | zero =>
    intro resp pending
    rw [runLoop_zero_def]
    simp only [stepPending_all]
    have key : pending.filter (fun i => !(condSat conds (resp 0) i)) =
        pending.filter (noSatBefore conds resp 1) := by
      apply List.filter_congr
      intro i _
      rw [noSatBefore_one]
    by_cases h : pending.filter (fun i => !(condSat conds (resp 0) i)) = []
    · rw [if_pos h]; exact key
    · rw [if_neg h]; exact key
  | succ r ih =>
    intro resp pending
    rw [runLoop_succ_def]
    simp only [stepPending_all]
    by_cases h : pending.filter (fun i => !(condSat conds (resp 0) i)) = []
    · rw [if_pos h]
      apply List.filter_congr
      intro i _
      rw [noSatBefore_one]
    · rw [if_neg h]
      show (runLoop false conds (fun k => resp (k + 1)) r
          (pending.filter (fun i => !(condSat conds (resp 0) i)))).pending =
        pending.filter
          (noSatBefore conds resp ((runLoop false conds (fun k => resp (k + 1)) r
            (pending.filter (fun i => !(condSat conds (resp 0) i)))).sends + 1))
      rw [ih (fun k => resp (k + 1))
        (pending.filter (fun i => !(condSat conds (resp 0) i))), List.filter_filter]
      apply List.filter_congr
      intro i _
      rw [noSatBefore_succ, Bool.and_comm]

/-- ALL-mode sufficiency: when every pending predicate is satisfied within
the retry budget, the loop ends with nothing pending. -/
theorem runLoop_all_satisfied (conds : List Conditional) :
    ∀ (retries : Nat) (resp : Nat → List String) (pending : List Nat),
    (∀ i ∈ pending, ∃ k ≤ retries, condSat conds (resp k) i = true) →
    (runLoop false conds resp retries pending).pending = [] := by
  intro retries
  induction retries with
  | zero =>
    intro resp pending hall
    rw [runLoop_zero_def]
    simp only [stepPending_all]
    have h : pending.filter (fun i => !(condSat conds (resp 0) i)) = [] := by
      apply List.filter_eq_nil_iff.mpr
      intro i hi
      obtain ⟨k, hk, hsat⟩ := hall i hi
      interval_cases k
      simp [hsat]
    rw [if_pos h]
    exact h
  | succ r ih =>
    intro resp pending hall
    rw [runLoop_succ_def]
    simp only [stepPending_all]
    by_cases h : pending.filter (fun i => !(condSat conds (resp 0) i)) = []
    · rw [if_pos h]
      exact h
    · rw [if_neg h]
      show (runLoop false conds (fun k => resp (k + 1)) r
          (pending.filter (fun i => !(condSat conds (resp 0) i)))).pending = []
      apply ih (fun k => resp (k + 1))
      intro i hi
      rw [List.mem_filter] at hi
      obtain ⟨hmem, hns⟩ := hi
      obtain ⟨k, hk, hsat⟩ := hall i hmem
      cases k with
      | zero => rw [hsat] at hns; simp at hns
      | succ k' => exact ⟨k', by omega, hsat⟩

end Ioscm.Command

namespace Ioscm.Command

/-- When the evaluation pass clears every pending predicate, the loop stops
with that iteration: one send, no sleep. -/
theorem runLoop_stop (matchAny : Bool) (conds : List Conditional)
    (resp : Nat → List String) (retries : Nat) (pending : List Nat)
    (h : (stepPending matchAny (condSat conds (resp 0)) pending).1 = []) :
    runLoop matchAny conds resp retries pending =
      ⟨[], resp 0, 1, 0,
       [(stepPending matchAny (condSat conds (resp 0)) pending).2]⟩ := by
  cases retries with
  | zero => rw [runLoop_zero_def, if_pos h, h]
  | succ r => rw [runLoop_succ_def, if_pos h, h]

end Ioscm.Command

/-! ## Lemmas about the Config controller -/

namespace Ioscm.Config

/-- `getConfigCalls` distributes over trace concatenation. -/
theorem getConfigCalls_append (l1 l2 : List DeviceCall) :
    getConfigCalls (l1 ++ l2) = getConfigCalls l1 ++ getConfigCalls l2 := by
  induction l1 with
  | nil => rfl
  | cons x rest ih => cases x <;> simp [getConfigCalls, ih]

/-- `save_config` always marks the result changed and never touches the
recorded commands. -/
theorem save_config_fields (c : Bool) (res : Result) :
    (save_config c res).1.changed = true
    ∧ (save_config c res).1.commands = res.commands
    ∧ (save_config c res).1.updates = res.updates := by
  cases c <;> simp [save_config]

/-- The copy command is emitted by `save_config` exactly outside check
mode; in check mode the skip warning is appended instead. -/
theorem save_config_calls (c : Bool) (res : Result) :
    (copySaveCmd ∈ (save_config c res).2 ↔ c = false)
    ∧ (c = true → saveSkipWarning ∈ (save_config c res).1.warnings) := by
  cases c <;> simp [save_config]

/-- Full behaviour of the save decision: the persist command is issued iff
the election condition holds outside check mode; election always marks the
result changed; in check mode election yields the warning and no command;
and without election the result is untouched. -/
theorem savePhase_spec (p : Params) (nc : Netcom) (res : Result) :
    (copySaveCmd ∈ (savePhase p nc res).calls ↔
      (p.check_mode = false ∧ save_elected p nc res.changed))
    ∧ (save_elected p nc res.changed → (savePhase p nc res).res.changed = true)
    ∧ (p.check_mode = true → save_elected p nc res.changed →
        saveSkipWarning ∈ (savePhase p nc res).res.warnings)
    ∧ (¬ save_elected p nc res.changed → (savePhase p nc res).res = res)
    ∧ (p.save_when = "never" → (savePhase p nc res).calls = []) := by
  by_cases h1 : p.save_when = "always"
  · cases hc : p.check_mode <;>
      simp [savePhase, save_config, save_elected, h1, hc, copySaveCmd]
  · by_cases h2 : p.save_when = "modified"
    · by_cases hm : modifiedDiffer p nc
      · cases hc : p.check_mode <;>
          simp [savePhase, save_config, save_elected, h1, h2, hm, hc, copySaveCmd]
      · cases hc : p.check_mode <;>
          simp [savePhase, save_elected, h1, h2, hm, hc, copySaveCmd]
    · by_cases h3 : p.save_when = "changed"
      · by_cases hch : res.changed
        · cases hc : p.check_mode <;>
            simp [savePhase, save_config, save_elected, h1, h2, h3, hch, hc,
              copySaveCmd]
        · simp [savePhase, save_elected, h1, h2, h3, hch, copySaveCmd]
      · simp [savePhase, save_elected, h1, h2, h3, copySaveCmd]

/-- The save decision never touches the recorded commands or updates and
never clears the changed flag. -/
theorem savePhase_fields (p : Params) (nc : Netcom) (res : Result) :
    (savePhase p nc res).res.commands = res.commands
    ∧ (savePhase p nc res).res.updates = res.updates
    ∧ (res.changed = true → (savePhase p nc res).res.changed = true) := by
  unfold savePhase save_config
  repeat' split
  all_goals simp

/-- The base-resolution step only ever appends a warning to the result. -/
theorem diffBase_fields (p : Params) (nc : Netcom) (res : Result)
    (sc : Option CfgText) (cfg : Option String) (contents : CfgText)
    (calls : List DeviceCall) :
    (diffBase p nc res sc cfg contents calls).2.1.commands = res.commands
    ∧ (diffBase p nc res sc cfg contents calls).2.1.updates = res.updates
    ∧ (diffBase p nc res sc cfg contents calls).2.1.changed = res.changed := by
  unfold diffBase
  split_ifs <;> simp

/-- The hash-comparison step never touches commands or updates and never
clears the changed flag. -/
theorem diffCompare_fields (p : Params) (nc : Netcom) (contents base : CfgText)
    (res : Result) (calls : List DeviceCall) :
    (diffCompare p nc contents base res calls).1.commands = res.commands
    ∧ (diffCompare p nc contents base res calls).1.updates = res.updates
    ∧ (res.changed = true →
        (diffCompare p nc contents base res calls).1.changed = true) := by
  unfold diffCompare
  split_ifs <;> simp

/-- The diff-against resolution never touches the recorded commands or
updates and never clears the changed flag. -/
theorem diffPhase_fields (p : Params) (nc : Netcom) (res : Result)
    (rc : CfgText) (sc : Option CfgText) (cfg : Option String) :
    (diffPhase p nc res rc sc cfg).1.commands = res.commands
    ∧ (diffPhase p nc res rc sc cfg).1.updates = res.updates
    ∧ (res.changed = true → (diffPhase p nc res rc sc cfg).1.changed = true) := by
  unfold diffPhase
  by_cases hd : p.diff_mode
  · simp only [hd, Bool.not_true, Bool.false_eq_true, if_false]
    obtain ⟨hb1, hb2, hb3⟩ := diffBase_fields p nc res sc cfg
      (diffFetched nc rc).1 (diffFetched nc rc).2
    obtain ⟨hc1, hc2, hc3⟩ := diffCompare_fields p nc (diffFetched nc rc).1
      (diffBase p nc res sc cfg (diffFetched nc rc).1 (diffFetched nc rc).2).1
      (diffBase p nc res sc cfg (diffFetched nc rc).1 (diffFetched nc rc).2).2.1
      (diffBase p nc res sc cfg (diffFetched nc rc).1 (diffFetched nc rc).2).2.2
    refine ⟨hc1.trans hb1, hc2.trans hb2, fun h => hc3 (hb3 ▸ h)⟩
  · simp [hd]

/-- The final advice warning never touches the recorded commands or changed
flag. -/
theorem finalWarn_fields (p : Params) (res : Result) :
    (finalWarn p res).commands = res.commands
    ∧ (finalWarn p res).updates = res.updates
    ∧ (finalWarn p res).changed = res.changed := by
  unfold finalWarn
  split_ifs <;> simp

/-- The edit dispatches of the apply step contribute no `get_config`
fetches to the trace. -/
theorem getConfigCalls_edits (b1 b2 b3 : Bool) (cmds : List String)
    (b : String) (d : Option String) :
    getConfigCalls
      (if b1 then
        (if b2 then [edit_dispatch cmds] else []) ++
        (if b3 then [DeviceCall.editBanner b d] else [])
       else []) = [] := by
  unfold edit_dispatch
  split_ifs <;> simp [getConfigCalls]

/-- Trace computation: the empty trace. -/
theorem gcc_nil : getConfigCalls [] = [] := rfl

/-- Trace computation: a fetch contributes its flags. -/
theorem gcc_get (f : List String) (r : List DeviceCall) :
    getConfigCalls (DeviceCall.getConfig f :: r) = f :: getConfigCalls r := rfl

/-- Trace computation: a config edit contributes nothing. -/
theorem gcc_editC (c : List String) (r : List DeviceCall) :
    getConfigCalls (DeviceCall.editConfig c :: r) = getConfigCalls r := rfl

/-- Trace computation: a banner edit contributes nothing. -/
theorem gcc_banner (b : String) (d : Option String) (r : List DeviceCall) :
    getConfigCalls (DeviceCall.editBanner b d :: r) = getConfigCalls r := rfl

/-- Trace computation: either edit dispatch contributes nothing. -/
theorem gcc_dispatch (c : List String) (r : List DeviceCall) :
    getConfigCalls (edit_dispatch c :: r) = getConfigCalls r := by
  unfold edit_dispatch
  split_ifs <;> rfl

end Ioscm.Config

/-! ## Claim theorems -/

open Ioscm
open Ioscm.Command (runLoop_stop runLoop_sends_pos runLoop_sends_le
  runLoop_zero_sends runLoop_nil_pending runLoop_sleeps runLoop_all_pending
  runLoop_all_satisfied takeWhile_not_sat dropWhile_head_sat evalAny_found
  evalAny_evaluated parse_commands_check)

/-- C1 counterexample: under `matchMode = ANY` with two supplied predicates,
both of which hold on the first responses, only predicate 0 is evaluated in
the iteration that satisfies the run — predicate 1 is pending in that
iteration but never evaluated, contradicting the claim that every pending
predicate is still evaluated against that iteration's responses. -/
theorem claim_C1_cex :
    (Command.run_commands "any"
      [⟨"a", fun _ => true⟩, ⟨"b", fun _ => true⟩] (fun _ => []) 3).evaluated =
        [[0]]
    ∧ (Command.run_commands "any"
        [⟨"a", fun _ => true⟩, ⟨"b", fun _ => true⟩] (fun _ => []) 3).pending = []
    ∧ (Command.run_commands "any"
        [⟨"a", fun _ => true⟩, ⟨"b", fun _ => true⟩] (fun _ => []) 3).sends = 1 := by
  decide

/-- C1 amended: under `matchMode = ANY`, in an iteration in which some
pending predicate is satisfied, predicate evaluation short-circuits at the
first satisfied predicate in supply order — the evaluated predicates are
exactly the unsatisfied ones before it followed by that predicate, the ones
after it are not evaluated — pending is cleared entirely, and the loop stops
after that iteration with no further send or sleep. -/
theorem claim_C1_thm (conds : List Conditional) (resp : Nat → List String)
    (retries : Nat) (pending : List Nat)
    (h : pending.any (Command.condSat conds (resp 0)) = true) :
    Command.stepPending true (Command.condSat conds (resp 0)) pending =
      ([], pending.takeWhile (fun j => !(Command.condSat conds (resp 0) j)) ++
        (pending.dropWhile (fun j => !(Command.condSat conds (resp 0) j))).take 1)
    ∧ Command.runLoop true conds resp retries pending =
        ⟨[], resp 0, 1, 0,
         [pending.takeWhile (fun j => !(Command.condSat conds (resp 0) j)) ++
          (pending.dropWhile (fun j => !(Command.condSat conds (resp 0) j))).take 1]⟩
    ∧ (∀ j ∈ pending.takeWhile (fun j => !(Command.condSat conds (resp 0) j)),
        Command.condSat conds (resp 0) j = false)
    ∧ (∀ i ∈ (pending.dropWhile (fun j => !(Command.condSat conds (resp 0) j))).take 1,
        Command.condSat conds (resp 0) i = true) := by
  have hstep : Command.stepPending true (Command.condSat conds (resp 0)) pending =
      ([], pending.takeWhile (fun j => !(Command.condSat conds (resp 0) j)) ++
        (pending.dropWhile (fun j => !(Command.condSat conds (resp 0) j))).take 1) := by
    simp [Command.stepPending, evalAny_found, evalAny_evaluated, h]
  refine ⟨hstep, ?_, takeWhile_not_sat _ _, dropWhile_head_sat _ _ h⟩
  rw [runLoop_stop true conds resp retries pending (by rw [hstep]), hstep]

/-- C1 witness: concrete instantiation of the amended claim — with two
always-true predicates the first iteration evaluates only index 0, clears
pending, and the loop stops at once. -/
theorem claim_C1_wit :
    Command.stepPending true
      (Command.condSat [⟨"a", fun _ => true⟩, ⟨"b", fun _ => true⟩]
        ((fun _ => ([] : List String)) 0)) [0, 1] = ([], [0])
    ∧ Command.runLoop true [⟨"a", fun _ => true⟩, ⟨"b", fun _ => true⟩]
        (fun _ => []) 2 [0, 1] = ⟨[], [], 1, 0, [[0]]⟩ := by
  have h := claim_C1_thm [⟨"a", fun _ => true⟩, ⟨"b", fun _ => true⟩]
    (fun _ => []) 2 [0, 1] (by decide)
  exact ⟨h.1, h.2.1⟩

/-- C3 counterexample: with a single never-satisfied predicate and
`retries = 0`, the loop performs exactly one send — the final one — and
still sleeps once afterwards, contradicting the claim that no sleep happens
after the final send of an exhausted run. -/
theorem claim_C3_cex :
    (Command.run_commands "all" [⟨"result contains x", fun _ => false⟩]
      (fun _ => ["resp"]) 0).sends = 1
    ∧ (Command.run_commands "all" [⟨"result contains x", fun _ => false⟩]
        (fun _ => ["resp"]) 0).pending = [0]
    ∧ (Command.run_commands "all" [⟨"result contains x", fun _ => false⟩]
        (fun _ => ["resp"]) 0).sleeps = 1 := by
  decide

/-- C3 amended: a sleep follows every send that leaves predicates pending —
including the final send of an exhausted run — and no sleep follows the
send after which pending is empty; hence a satisfied run sleeps exactly
`sends - 1` times while an exhausted run sleeps `sends` times. -/
theorem claim_C3_thm (matchP : String) (conds : List Conditional)
    (resp : Nat → List String) (retries : Nat) :
    (Command.run_commands matchP conds resp retries).sleeps =
      (if (Command.run_commands matchP conds resp retries).pending = []
       then (Command.run_commands matchP conds resp retries).sends - 1
       else (Command.run_commands matchP conds resp retries).sends) :=
  runLoop_sleeps (matchP == "any") conds retries resp (List.range conds.length)

/-- C4: under `matchMode = ALL` the loop ends with the pending list equal to
exactly the supplied predicates (in supply order) that were satisfied by
none of the performed sends; it ends satisfied iff every supplied predicate
holds at some send within the `retries + 1` budget; and when predicates
remain pending, `generate_command` fails reporting exactly the raw source
text of each remaining predicate. -/
theorem claim_C4_thm (checkMode : Bool) (cmds : List String)
    (conds : List Conditional) (send : List String → Nat → List String)
    (retries : Nat) (resp : Nat → List String) (R : Command.RunResult)
    (hresp : resp = send (Command.parse_commands checkMode cmds []).1)
    (hR : R = Command.run_commands "all" conds resp retries) :
    R.pending =
      (List.range conds.length).filter (Command.noSatBefore conds resp R.sends)
    ∧ (R.pending = [] ↔
        ∀ i < conds.length, ∃ k ≤ retries,
          Command.condSat conds (resp k) i = true)
    ∧ R.sends ≤ retries + 1
    ∧ (R.pending ≠ [] →
        Command.generate_command checkMode "all" retries cmds conds send =
          Except.error (Command.failMsg, R.pending.map (Command.condRaw conds))) := by
  subst hresp
  subst hR
  have hrc : Command.run_commands "all" conds
      (send (Command.parse_commands checkMode cmds []).1) retries =
      Command.runLoop false conds
        (send (Command.parse_commands checkMode cmds []).1) retries
        (List.range conds.length) := rfl
  rw [hrc]
  refine ⟨runLoop_all_pending conds retries _ _, ⟨?_, ?_⟩, runLoop_sends_le _ _ _ _ _, ?_⟩
  · intro hnil i hi
    rw [runLoop_all_pending conds retries _ _] at hnil
    have hmem := List.filter_eq_nil_iff.mp hnil i (List.mem_range.mpr hi)
    rw [Command.noSatBefore] at hmem
    simp only [decide_eq_true_eq] at hmem
    push_neg at hmem
    obtain ⟨k, hk, hsat⟩ := hmem
    refine ⟨k, ?_, by simpa using hsat⟩
    have := runLoop_sends_le false conds retries
      (send (Command.parse_commands checkMode cmds []).1) (List.range conds.length)
    omega
  · intro hall
    apply runLoop_all_satisfied
    intro i hi
    exact hall i (List.mem_range.mp hi)
  · intro hne
    rw [Command.generate_command]
    rw [if_pos (by exact hne)]
    rfl

/-- C4 witness: one never-satisfied predicate with one retry — the run
exhausts and the operation fails naming the predicate's raw text. -/
theorem claim_C4_wit :
    Command.generate_command false "all" 1 ["show version"]
      [⟨"result contains IOS", fun _ => false⟩] (fun _ _ => ["out"]) =
      Except.error (Command.failMsg, ["result contains IOS"]) := by
  have h := claim_C4_thm false ["show version"]
    [⟨"result contains IOS", fun _ => false⟩] (fun _ _ => ["out"]) 1 _ _ rfl rfl
  exact h.2.2.2 (by decide)

/-- C7: the check-mode filter keeps exactly the commands whose text starts
with "show" (preserving order), appends exactly one warning naming each
removed command, and is idempotent — filtering an already filtered list
returns it unchanged and appends no warnings. -/
theorem claim_C7_thm (cmds w w' : List String) :
    (Command.parse_commands true cmds w).1 =
      cmds.filter (fun c => c.startsWith "show")
    ∧ (Command.parse_commands true cmds w).2 =
        w ++ (cmds.filter (fun c => !(c.startsWith "show"))).map Command.warnMsg
    ∧ Command.parse_commands true (Command.parse_commands true cmds w).1 w' =
        ((Command.parse_commands true cmds w).1, w') := by
  have h := parse_commands_check cmds w
  refine ⟨by rw [h], by rw [h], ?_⟩
  rw [h]
  rw [parse_commands_check]
  have h1 : (cmds.filter (fun c => c.startsWith "show")).filter
      (fun c => c.startsWith "show") = cmds.filter (fun c => c.startsWith "show") := by
    rw [List.filter_filter]
    apply List.filter_congr
    intro c _
    cases hc : c.startsWith "show" <;> simp [hc]
  have h2 : (cmds.filter (fun c => c.startsWith "show")).filter
      (fun c => !(c.startsWith "show")) = [] := by
    apply List.filter_eq_nil_iff.mpr
    intro c hc
    rw [List.mem_filter] at hc
    simp [hc.2]
  rw [h1, h2]
  simp

/-- C8: for every retry budget the executor performs between 1 and
`retries + 1` sends (it terminates by construction — the loop is a total
function of the budget); with zero supplied predicates or a zero budget it
performs exactly one send regardless of the responses. -/
theorem claim_C8_thm (matchP : String) (conds : List Conditional)
    (resp : Nat → List String) (retries : Nat) :
    (1 ≤ (Command.run_commands matchP conds resp retries).sends
      ∧ (Command.run_commands matchP conds resp retries).sends ≤ retries + 1)
    ∧ (conds = [] → (Command.run_commands matchP conds resp retries).sends = 1)
    ∧ (retries = 0 → (Command.run_commands matchP conds resp retries).sends = 1) := by
  refine ⟨⟨runLoop_sends_pos _ _ _ _ _, runLoop_sends_le _ _ _ _ _⟩, ?_, ?_⟩
  · intro hc
    subst hc
    rw [show Command.run_commands matchP [] resp retries =
        Command.runLoop (matchP == "any") [] resp retries [] from rfl,
      runLoop_nil_pending]
  · intro hr
    subst hr
    exact runLoop_zero_sends _ _ _ _

/-- C8 witness: no predicates, nine retries — exactly one send. -/
theorem claim_C8_wit :
    (Command.run_commands "all" [] (fun _ => ["x"]) 9).sends = 1 :=
  (claim_C8_thm "all" [] (fun _ => ["x"]) 9).2.1 rfl

/-- C2 counterexample: with `backup = true`, `defaults = true`, no
`running_config` override and one config line, the invocation fetches the
running configuration twice — and both fetches use the very same flags
(the defaults flag), so the copy cached by the backup block already
satisfied the resolution request.  This contradicts the claim that the
running config is fetched at most once whenever a previously-fetched copy
with the same defaults flags is available. -/
theorem claim_C2_cex :
    Ioscm.Config.getConfigCalls
        (Ioscm.Config.traceOf (Ioscm.Config.generate_command pC2x baseNetcom)) =
      [["all"], ["all"]]
    ∧ pC2x.running_config = none ∧ pC2x.backup = true ∧ pC2x.defaults = true := by
  refine ⟨by decide, rfl, rfl, rfl⟩

/-- C2 amended: reuse of a previously-fetched running config happens only
when defaults are not requested.  With a backup pre-fetch, no override and
config input supplied: if `defaults` is false (and the cached copy is a
non-empty string) the resolution reuses the cached copy and exactly one
fetch (with empty flags) is issued in the apply step; if `defaults` is true
the resolution fetches again even though the pre-fetch already used exactly
the same defaults flags, so two identical fetches are issued. -/
theorem claim_C2_thm (p : Ioscm.Config.Params) (nc : Ioscm.Config.Netcom)
    (hrc : p.running_config = none) (hb : p.backup = true)
    (hl : Ioscm.Config.linesOrSrc p = true) :
    (p.defaults = false → nc.getConfigResp [] ≠ "" →
      Ioscm.Config.getConfigCalls (Ioscm.Config.applyCalls p nc) = [[]])
    ∧ (p.defaults = true →
      Ioscm.Config.getConfigCalls (Ioscm.Config.applyCalls p nc) =
        [nc.defaultsFlag, nc.defaultsFlag]) := by
  have hpf : Ioscm.Config.preFetch p = true := by
    simp [Ioscm.Config.preFetch, hb]
  constructor
  · intro hd hne
    have hflags : Ioscm.Config.defaultFlags p nc = [] := by
      simp [Ioscm.Config.defaultFlags, hd]
    have hpfc : Ioscm.Config.preFetchContents p nc =
        some (nc.getConfigResp []) := by
      rw [Ioscm.Config.preFetchContents, if_pos hpf, hflags]
    have hgr : Ioscm.Config.get_running_config p nc
        (some (nc.getConfigResp [])) [] = (nc.getConfigResp [], []) := by
      rw [Ioscm.Config.get_running_config]
      rw [if_neg (by simp [Ioscm.Config.optTruthy, hrc])]
      rw [if_pos (by simp [Ioscm.Config.optTruthy, hd, hne])]
      rfl
    simp only [Ioscm.Config.applyCalls, Ioscm.Config.applyPhase, hflags, hpfc,
      hgr, hl, if_true]
    cases hgd : nc.getDiff (Ioscm.Config.get_candidate_config p nc)
        (nc.getConfigResp []) p.diff_match p.diff_ignore_lines p.parents
        p.replace with
    | error e =>
      simp [hgd, Ioscm.Config.getConfigCalls]
    | ok d =>
      simp only [hgd]
      generalize p.before ++ d.1.splitOn "\n" ++ p.after = cmds
      split_ifs <;>
        simp only [Ioscm.Config.gcc_nil, Ioscm.Config.gcc_get,
          Ioscm.Config.gcc_editC, Ioscm.Config.gcc_banner,
          Ioscm.Config.gcc_dispatch, List.append_nil, List.nil_append,
          List.cons_append, List.append_assoc]
  · intro hd
    have hflags : Ioscm.Config.defaultFlags p nc = nc.defaultsFlag := by
      simp [Ioscm.Config.defaultFlags, hd]
    have hpfc : Ioscm.Config.preFetchContents p nc =
        some (nc.getConfigResp nc.defaultsFlag) := by
      rw [Ioscm.Config.preFetchContents, if_pos hpf, hflags]
    have hgr : Ioscm.Config.get_running_config p nc
        (some (nc.getConfigResp nc.defaultsFlag)) nc.defaultsFlag =
        (nc.getConfigResp nc.defaultsFlag,
         [Ioscm.Config.DeviceCall.getConfig nc.defaultsFlag]) := by
      rw [Ioscm.Config.get_running_config]
      rw [if_neg (by simp [Ioscm.Config.optTruthy, hrc])]
      rw [if_neg (by simp [hd])]
    simp only [Ioscm.Config.applyCalls, Ioscm.Config.applyPhase, hflags, hpfc,
      hgr, hl, if_true]
    cases hgd : nc.getDiff (Ioscm.Config.get_candidate_config p nc)
        (nc.getConfigResp nc.defaultsFlag) p.diff_match p.diff_ignore_lines
        p.parents p.replace with
    | error e =>
      simp [hgd, Ioscm.Config.getConfigCalls]
    | ok d =>
      simp only [hgd]
      generalize p.before ++ d.1.splitOn "\n" ++ p.after = cmds
      split_ifs <;>
        simp only [Ioscm.Config.gcc_nil, Ioscm.Config.gcc_get,
          Ioscm.Config.gcc_editC, Ioscm.Config.gcc_banner,
          Ioscm.Config.gcc_dispatch, List.append_nil, List.nil_append,
          List.cons_append, List.append_assoc]

/-- C2 witness: the defaults-off half of the amended claim at a concrete
request — the backup pre-fetch is reused and only one fetch occurs. -/
theorem claim_C2_wit :
    Ioscm.Config.getConfigCalls
      (Ioscm.Config.applyCalls pC2w baseNetcom) = [[]] :=
  (claim_C2_thm pC2w baseNetcom rfl rfl (by decide)).1 rfl (by decide)

/-- C5: the save decision issues the persist command iff — outside check
mode — the election condition holds: `save_when = "always"` always,
`"modified"` iff the content hash of the fetched running config differs
from the content hash of the fetched startup config (both normalized with
`diff_ignore_lines`), `"changed"` iff the apply step set `changed`, and
`"never"` never (leaving the result untouched).  In check mode the persist
command is skipped and the skip warning is emitted instead, but `changed`
is still set to true. -/
theorem claim_C5_thm (p : Ioscm.Config.Params) (nc : Ioscm.Config.Netcom)
    (res : Ioscm.Config.Result) :
    (Ioscm.Config.copySaveCmd ∈ (Ioscm.Config.savePhase p nc res).calls ↔
      (p.check_mode = false ∧ Ioscm.Config.save_elected p nc res.changed))
    ∧ (Ioscm.Config.save_elected p nc res.changed →
        (Ioscm.Config.savePhase p nc res).res.changed = true)
    ∧ (p.check_mode = true → Ioscm.Config.save_elected p nc res.changed →
        Ioscm.Config.saveSkipWarning ∈
          (Ioscm.Config.savePhase p nc res).res.warnings
        ∧ Ioscm.Config.copySaveCmd ∉ (Ioscm.Config.savePhase p nc res).calls)
    ∧ (¬ Ioscm.Config.save_elected p nc res.changed →
        (Ioscm.Config.savePhase p nc res).res = res)
    ∧ (p.save_when = "never" →
        (Ioscm.Config.savePhase p nc res).res = res
        ∧ (Ioscm.Config.savePhase p nc res).calls = []) := by
  obtain ⟨h1, h2, h3, h4, h5⟩ := Ioscm.Config.savePhase_spec p nc res
  refine ⟨h1, h2, ?_, h4, ?_⟩
  · intro hc he
    refine ⟨h3 hc he, ?_⟩
    intro hmem
    have := (h1.mp hmem).1
    rw [hc] at this
    exact absurd this (by simp)
  · intro hnev
    have hne : ¬ Ioscm.Config.save_elected p nc res.changed := by
      rw [Ioscm.Config.save_elected, hnev]
      simp
    exact ⟨h4 hne, h5 hnev⟩

/-- C5 witness: save always outside check mode on a result with no changes —
the persist command is issued. -/
theorem claim_C5_wit :
    Ioscm.Config.copySaveCmd ∈
      (Ioscm.Config.savePhase pC5w baseNetcom Ioscm.Config.emptyResult).calls :=
  (claim_C5_thm pC5w baseNetcom Ioscm.Config.emptyResult).1.mpr ⟨rfl, Or.inl rfl⟩

/-- C6 counterexample: a request whose `multiline_delimiter` is the empty
string — not exactly one character — is *not* rejected: the Python
truthiness test in `check_args` skips the length check for the falsy empty
string, and the invocation completes successfully.  This contradicts the
claim that every delimiter that is not exactly one character (including the
empty string) is rejected with a validation failure. -/
theorem claim_C6_cex :
    pC6x.multiline_delimiter = some ""
    ∧ ("" : String).length ≠ 1
    ∧ Ioscm.Config.generate_command pC6x baseNetcom =
        Except.ok (Ioscm.Config.emptyResult, []) :=
  ⟨rfl, by decide, rfl⟩

/-- C6 amended: a reconcile request is rejected with the validation failure
— before any device contact (the error carries an empty device trace) —
exactly when `multiline_delimiter` is a truthy (non-empty) string whose
length is not 1; the empty string and an unset delimiter pass validation. -/
theorem claim_C6_thm (p : Ioscm.Config.Params) (nc : Ioscm.Config.Netcom)
    (s : String) (hd : p.multiline_delimiter = some s) (hne : s ≠ "")
    (hlen : s.length ≠ 1) :
    Ioscm.Config.generate_command p nc =
      Except.error
        ("multiline_delimiter value can only be a single character", []) := by
  have hca : Ioscm.Config.check_args_fail p = true := by
    unfold Ioscm.Config.check_args_fail
    rw [hd]
    simp [bne_iff_ne, hne, hlen]
  unfold Ioscm.Config.generate_command
  rw [if_pos hca]

/-- C6 witness: a two-character delimiter is rejected before any device
contact. -/
theorem claim_C6_wit :
    Ioscm.Config.generate_command pC6w baseNetcom =
      Except.error
        ("multiline_delimiter value can only be a single character", []) :=
  claim_C6_thm pC6w baseNetcom "ab" rfl (by decide) (by decide)

/-- The empty line diff splits into a single empty-string command, exactly
as Python's `"".split("\\n") == [""]` does. -/
theorem splitOn_empty_newline : ("" : String).splitOn "\n" = [""] := by
  rw [String.splitOn]
  simp only [show (("\n" : String) == "") = false by decide, Bool.false_eq_true,
    if_false]
  rw [String.splitOnAux]
  simp [show ("" : String).atEnd 0 = true by decide,
    show ("" : String).extract 0 0 = "" by decide]

/-- Full evaluation of the C9 fixture: empty line diff, banner "BANNER",
before/after commands, outside check mode. -/
theorem pC9_result :
    Ioscm.Config.generate_command pC9 ncC9 =
      Except.ok
        ({ changed := true,
           warnings := ["To ensure idempotency and correct diff the input configuration lines should be similar to how they appear if present in the running configuration on device"],
           backupContents := none,
           commands := some ["b1", "", "a1"],
           updates := some ["b1", "", "a1"],
           banners := some "BANNER",
           diff := none },
         [Ioscm.Config.DeviceCall.getConfig [],
          Ioscm.Config.DeviceCall.editConfig ["b1", "", "a1"],
          Ioscm.Config.DeviceCall.editBanner "BANNER" (some "@")]) := by
  simp [Ioscm.Config.generate_command, Ioscm.Config.applyPhase,
    Ioscm.Config.savePhase, Ioscm.Config.diffPhase, Ioscm.Config.finalWarn,
    Ioscm.Config.check_args_fail, Ioscm.Config.get_candidate_config,
    Ioscm.Config.get_running_config, Ioscm.Config.preFetchContents,
    Ioscm.Config.preFetch, Ioscm.Config.defaultFlags, Ioscm.Config.linesOrSrc,
    Ioscm.Config.optTruthy, Ioscm.Config.emptyResult, Ioscm.Config.edit_dispatch,
    Ioscm.Config.save_config, Ioscm.Config.cfgTruthy, splitOn_empty_newline,
    pC9, ncC9, baseParams, baseNetcom,
    show ("@" : String).length = 1 by decide,
    show ("b1".startsWith "macro name") = false by decide]

/-- C9 counterexample: with an empty line diff and a non-empty banner diff,
`before = ["b1"]` and `after = ["a1"]`, the recorded commands are
`["b1", "", "a1"]` — the empty line diff contributes one empty-string
entry — and not `["b1", "a1"]` as the claim states. -/
theorem claim_C9_cex :
    (Ioscm.Config.resOf (Ioscm.Config.generate_command pC9 ncC9)).commands =
      some ["b1", "", "a1"]
    ∧ (["b1", "", "a1"] : List String) ≠ ["b1"] ++ ["a1"] := by
  refine ⟨?_, by decide⟩
  rw [pC9_result]
  rfl

/-- C9 amended: whenever the line diff is empty and the banner diff is
non-empty, the recorded commands and updates are the before commands, then
one empty-string entry contributed by splitting the empty line diff, then
the after commands; `changed` is set to true; and outside check mode a
banner edit with the configured delimiter is dispatched independent of the
line commands. -/
theorem claim_C9_thm (p : Ioscm.Config.Params) (nc : Ioscm.Config.Netcom)
    (b : String) (res : Ioscm.Config.Result)
    (tr : List Ioscm.Config.DeviceCall)
    (hl : Ioscm.Config.linesOrSrc p = true)
    (hgd : nc.getDiff (Ioscm.Config.get_candidate_config p nc)
        (Ioscm.Config.get_running_config p nc
          (Ioscm.Config.preFetchContents p nc)
          (Ioscm.Config.defaultFlags p nc)).1
        p.diff_match p.diff_ignore_lines p.parents p.replace =
      Except.ok ("", b))
    (hb : b ≠ "")
    (hok : Ioscm.Config.generate_command p nc = Except.ok (res, tr)) :
    res.commands = some (p.before ++ [""] ++ p.after)
    ∧ res.updates = some (p.before ++ [""] ++ p.after)
    ∧ res.changed = true
    ∧ (p.check_mode = false →
        Ioscm.Config.DeviceCall.editBanner b p.multiline_delimiter ∈ tr) := by
  have hbb : (b != "") = true := by simp [hb]
  have key : ∀ a, Ioscm.Config.applyPhase p nc = Except.ok a →
      a.res.commands = some (p.before ++ [""] ++ p.after)
      ∧ a.res.updates = some (p.before ++ [""] ++ p.after)
      ∧ a.res.changed = true
      ∧ (p.check_mode = false →
          Ioscm.Config.DeviceCall.editBanner b p.multiline_delimiter ∈
            a.calls) := by
    intro a happ
    simp only [Ioscm.Config.applyPhase, hl, eq_self_iff_true, if_true, hgd,
      splitOn_empty_newline, hbb, Bool.or_true, Except.ok.injEq] at happ
    subst happ
    refine ⟨rfl, rfl, rfl, ?_⟩
    intro hc
    simp [hc]
  by_cases hca : Ioscm.Config.check_args_fail p = true
  · rw [Ioscm.Config.generate_command, if_pos hca] at hok
    exact absurd hok (by simp)
  · cases happ : Ioscm.Config.applyPhase p nc with
    | error e =>
      rw [Ioscm.Config.generate_command, if_neg hca, happ] at hok
      exact absurd hok (by simp)
    | ok a =>
      rw [Ioscm.Config.generate_command, if_neg hca, happ] at hok
      simp only [Except.ok.injEq, Prod.mk.injEq] at hok
      obtain ⟨hres, htr⟩ := hok
      subst hres
      subst htr
      obtain ⟨hc1, hc2, hc3, hc4⟩ := key a happ
      obtain ⟨hf1, hf2, hf3⟩ := Ioscm.Config.finalWarn_fields p
        (Ioscm.Config.diffPhase p nc (Ioscm.Config.savePhase p nc a.res).res
          (Ioscm.Config.savePhase p nc a.res).running_config
          (Ioscm.Config.savePhase p nc a.res).startup_config a.config).1
      obtain ⟨hd1, hd2, hd3⟩ := Ioscm.Config.diffPhase_fields p nc
        (Ioscm.Config.savePhase p nc a.res).res
        (Ioscm.Config.savePhase p nc a.res).running_config
        (Ioscm.Config.savePhase p nc a.res).startup_config a.config
      obtain ⟨hs1, hs2, hs3⟩ := Ioscm.Config.savePhase_fields p nc a.res
      refine ⟨?_, ?_, ?_, ?_⟩
      · rw [hf1, hd1, hs1, hc1]
      · rw [hf2, hd2, hs2, hc2]
      · rw [hf3]
        exact hd3 (hs3 hc3)
      · intro hc
        exact List.mem_append.mpr (Or.inl (List.mem_append.mpr (Or.inl (hc4 hc))))

/-- C9 witness: the amended claim at the concrete fixture — the result is
changed and the banner edit with the "@" delimiter appears in the trace. -/
theorem claim_C9_wit :
    (Ioscm.Config.resOf (Ioscm.Config.generate_command pC9 ncC9)).changed = true
    ∧ Ioscm.Config.DeviceCall.editBanner "BANNER" (some "@") ∈
        Ioscm.Config.traceOf (Ioscm.Config.generate_command pC9 ncC9) := by
  have h := claim_C9_thm pC9 ncC9 "BANNER"
    (Ioscm.Config.resOf (Ioscm.Config.generate_command pC9 ncC9))
    (Ioscm.Config.traceOf (Ioscm.Config.generate_command pC9 ncC9))
    (by decide) rfl (by decide) (by rw [pC9_result]; rfl)
  exact ⟨h.2.2.1, h.2.2.2 rfl⟩

/-- C10: `save_config` sets the `changed` flag unconditionally — in check
mode or not — and consequently every invocation whose save decision elects
to persist (for any `save_when` value, with the hash condition for
"modified" and the apply-step flag for "changed") returns `changed = true`,
even when no commands were applied; in particular `save_when = "always"`
with no candidate changes still returns `changed = true`. -/
theorem claim_C10_thm :
    (∀ (c : Bool) (res : Ioscm.Config.Result),
      (Ioscm.Config.save_config c res).1.changed = true)
    ∧ (∀ (p : Ioscm.Config.Params) (nc : Ioscm.Config.Netcom)
        (res : Ioscm.Config.Result) (tr : List Ioscm.Config.DeviceCall),
        Ioscm.Config.generate_command p nc = Except.ok (res, tr) →
        Ioscm.Config.save_elected p nc (Ioscm.Config.applyChangedOf p nc) →
        res.changed = true) := by
  constructor
  · intro c res
    exact (Ioscm.Config.save_config_fields c res).1
  · intro p nc res tr hok hel
    by_cases hca : Ioscm.Config.check_args_fail p = true
    · rw [Ioscm.Config.generate_command, if_pos hca] at hok
      exact absurd hok (by simp)
    · cases happ : Ioscm.Config.applyPhase p nc with
      | error e =>
        rw [Ioscm.Config.generate_command, if_neg hca, happ] at hok
        exact absurd hok (by simp)
      | ok a =>
        rw [Ioscm.Config.generate_command, if_neg hca, happ] at hok
        simp only [Except.ok.injEq, Prod.mk.injEq] at hok
        obtain ⟨hres, htr⟩ := hok
        subst hres
        have hel' : Ioscm.Config.save_elected p nc a.res.changed := by
          simpa only [Ioscm.Config.applyChangedOf, happ] using hel
        have h1 : (Ioscm.Config.savePhase p nc a.res).res.changed = true :=
          (Ioscm.Config.savePhase_spec p nc a.res).2.1 hel'
        have h2 := (Ioscm.Config.diffPhase_fields p nc
          (Ioscm.Config.savePhase p nc a.res).res
          (Ioscm.Config.savePhase p nc a.res).running_config
          (Ioscm.Config.savePhase p nc a.res).startup_config a.config).2.2 h1
        rw [(Ioscm.Config.finalWarn_fields p _).2.2]
        exact h2

/-- C10 witness: `save_when = "always"` with no configuration input at all —
the outcome is still `changed = true`. -/
theorem claim_C10_wit :
    (Ioscm.Config.resOf (Ioscm.Config.generate_command pC10w baseNetcom)).changed =
      true := by
  have hok : Ioscm.Config.generate_command pC10w baseNetcom =
      Except.ok
        (Ioscm.Config.resOf (Ioscm.Config.generate_command pC10w baseNetcom),
         Ioscm.Config.traceOf (Ioscm.Config.generate_command pC10w baseNetcom)) :=
    rfl
  exact claim_C10_thm.2 pC10w baseNetcom _ _ hok (Or.inl rfl)
